import Mathlib

/-!
Verification of the record reconciliation and merge engine of the
marketing-script repository.  The definitions below are a shallow
embedding of the Python sources:

* `normalize_key`, `looks_like_mobile`, `merge_into_existing_excel_df`
  and the filesystem wrapper `merge_into_existing_excel` embed
  `src/src/output_writer.py` (`OutputWriter.merge_into_existing_excel`
  and its local helpers `normalize_key`, `looks_like_mobile`,
  `clean_value`);
* `compare_with_existing` embeds `pre_merge.py`;
* `load_businesses_with_contact_info` and
  `process_text_search_result` embed `src/src/business_processor.py`
  (`BusinessDataProcessor.load_businesses_with_contact_info` and
  `BusinessDataProcessor._process_text_search_result`);
* `processor_classifies_mobile` embeds the inline phone
  classification of `BusinessDataProcessor.process_item`.

Python strings are modelled as `String`, dictionaries as association
lists (`List (String × String)`), pandas data frames as a column list
plus rows of key/value pairs aligned with the columns, and the
filesystem as an association list from paths to workbook contents.
-/

/-! ### Python string primitives -/

/-- The whitespace characters removed by Python's `str.strip()`
(restricted to the ASCII range used by the data). -/
def pyWhitespace (c : Char) : Bool :=
  c = ' ' || c = '\t' || c = '\n' || c = '\r' || c = '\x0b' || c = '\x0c'

/-- Python `str.strip()` on a character list. -/
def pyStripList (l : List Char) : List Char :=
  ((l.dropWhile pyWhitespace).reverse.dropWhile pyWhitespace).reverse

/-- Python `str.strip()`. -/
def pyStrip (s : String) : String :=
  ⟨pyStripList s.toList⟩

/-- ASCII lower-casing of one character, as Python's `str.lower()`
acts on the ASCII letters appearing in the data. -/
def pyLowerChar (c : Char) : Char :=
  if 'A' ≤ c && c ≤ 'Z' then Char.ofNat (c.toNat + 32) else c

/-- Python truthiness-based `or` on strings: `a or b`. -/
def pyOr (a b : String) : String :=
  if a = "" then b else a

/-- `clean_value` from `output_writer.py`: stringify and strip
(`None`/NaN are modelled as the empty string). -/
def clean_value (s : String) : String := pyStrip s

/-! ### `normalize_key` (output_writer.py lines 365-374, identical in
pre_merge.py lines 46-56) -/

/-- Characters kept by the regex `[^a-z0-9]` removal. -/
def isKeyChar (c : Char) : Bool :=
  ('a' ≤ c && c ≤ 'z') || ('0' ≤ c && c ≤ '9')

/-- Drop a literal leading pattern if present (`re.sub(r'^pat', '', s)`
for a literal pattern). -/
def dropLeading (pat l : List Char) : List Char :=
  if pat.isPrefixOf l then l.drop pat.length else l

/-- `re.sub(r'^https?://', '', s)`: the regex matches `http://` or,
greedily, `https://` at the start of the string. -/
def dropScheme (l : List Char) : List Char :=
  if ("https://".toList).isPrefixOf l then l.drop 8
  else if ("http://".toList).isPrefixOf l then l.drop 7
  else l

/-- `normalize_key` from `output_writer.py` / `pre_merge.py`:
lower-case, strip, drop a leading scheme, drop a leading `www.`,
remove every character that is not an ASCII lower-case letter or
digit. -/
def normalize_key (s : String) : String :=
  let l := s.toList.map pyLowerChar
  let l := pyStripList l
  let l := dropScheme l
  let l := dropLeading "www.".toList l
  ⟨l.filter isKeyChar⟩

/-! ### Phone classifiers -/

/-- The digit characters of a phone string, as computed both by
`re.sub(r'\D', '', str(phone))` in `output_writer.py` and by
`''.join(filter(str.isdigit, phone))` in `business_processor.py`. -/
def digitsOf (phone : String) : List Char :=
  phone.toList.filter Char.isDigit

/-- `looks_like_mobile` from `output_writer.py` lines 381-388: strip
non-digits, strip a leading `57` country code, mobile iff the
remainder starts with `3`.  The empty phone is explicitly
non-mobile. -/
def looks_like_mobile (phone : String) : Bool :=
  if phone = "" then false
  else
    let digits := digitsOf phone
    let digits := if ("57".toList).isPrefixOf digits then digits.drop 2 else digits
    ("3".toList).isPrefixOf digits

/-- The inline classification of `BusinessDataProcessor.process_item`
(business_processor.py lines 129-137) and
`_process_text_search_result` (lines 485-493): mobile iff the digit
string starts with `573`, or has exactly 10 digits and starts with
`3`. -/
def processor_classifies_mobile (phone : String) : Bool :=
  let d := digitsOf phone
  ("573".toList).isPrefixOf d || (d.length = 10 && ("3".toList).isPrefixOf d)


/-! ### Python dictionaries and pandas data frames

A dictionary / data-frame row is an association list from column
names to cell values; pandas NaN cells are modelled as the empty
string (the merge reads the key column through `fillna("")`). -/

abbrev Assoc := List (String × String)

abbrev Row := List (String × String)

/-- `k in item` for a Python dict. -/
def itemHas (item : Assoc) (k : String) : Bool :=
  item.any (fun p => p.1 = k)

/-- `item.get(k, '')` / `item[k]` for a Python dict (absent keys and
`None` values are the empty string). -/
def itemGet (item : Assoc) (k : String) : String :=
  ((item.find? (fun p => p.1 = k)).map Prod.snd).getD ""

/-- `item.get(k, d)` for a Python dict. -/
def itemGetD (item : Assoc) (k d : String) : String :=
  ((item.find? (fun p => p.1 = k)).map Prod.snd).getD d

/-- `item[k] = v` on a Python dict: replace the value if the key is
present, append the key otherwise. -/
def assocSet (item : Assoc) (k v : String) : Assoc :=
  if itemHas item k then item.map (fun p => if p.1 = k then (k, v) else p)
  else item ++ [(k, v)]

/-- `df.at[idx, c] = v` restricted to one row: set the cell of an
existing column (pandas never adds a column this way on these
frames). -/
def rowSet (r : Row) (c v : String) : Row :=
  r.map (fun p => if p.1 = c then (c, v) else p)

/-- An Excel sheet read by pandas: header columns plus rows keyed by
column name. -/
structure ExcelDF where
  cols : List String
  rows : List Row
deriving DecidableEq, Repr

/-- `df.columns = [str(c).strip() for c in df.columns]`: pandas
renames the columns for every row at once. -/
def stripDfCols (df : ExcelDF) : ExcelDF :=
  ⟨df.cols.map pyStrip, df.rows.map (fun r => r.map (fun p => (pyStrip p.1, p.2)))⟩

/-! ### `merge_into_existing_excel` — in-memory part
(output_writer.py lines 306-461) -/

/-- Key-column choice (lines 352-363): first `key_priority` entry
present among the columns, else `Nombre` if present, else the first
column. -/
def chooseKeyCol (cols kp : List String) : String :=
  match kp.find? (fun k => cols.contains k) with
  | some k => k
  | none => if cols.contains "Nombre" then "Nombre" else cols.headD ""

/-- Item key (lines 392-400): first `key_priority` field present with
a truthy value, else `item.get('Nombre', '')`. -/
def itemKeyVal (kp : List String) (item : Assoc) : String :=
  match kp.find? (fun k => itemHas item k && itemGet item k != "") with
  | some k => itemGet item k
  | none => itemGet item "Nombre"

/-- The `existing_map` lookup (lines 376-378): the dict comprehension
maps each normalized key to the LAST master row index carrying it;
built once, before the merge loop, and never updated. -/
def existingIdx (keyCol : String) (rows : List Row) (nkey : String) : Option Nat :=
  (List.range rows.length).reverse.find?
    (fun i => normalize_key (itemGet (rows.getD i []) keyCol) == nkey)

/-- The pre-loop cleanup (lines 312-329): an item with no WhatsApp and
no phone at all gets explicit `N/A` phone fields; all items are
kept. -/
def prefilterItem (item : Assoc) : Assoc :=
  let w := clean_value (itemGet item "WhatsApp")
  let t := clean_value (itemGet item "Telefono")
  let t2 := clean_value (itemGet item "Teléfono")
  if w = "" ∧ t = "" ∧ t2 = "" then
    let it := assocSet item "WhatsApp" "N/A"
    let it := assocSet it "Telefono" "N/A"
    if itemHas item "Teléfono" then assocSet it "Teléfono" "N/A" else it
  else item

/-- The raw number considered for the `WhatsApp` column (lines 412,
439). -/
def whatsappVal (item : Assoc) : String :=
  pyOr (clean_value (itemGet item "WhatsApp"))
    (pyOr (clean_value (itemGet item "Telefono")) (clean_value (itemGet item "Teléfono")))

/-- The raw number considered for the `Telefono` column (lines 418,
445). -/
def telefonoVal (item : Assoc) : String :=
  pyOr (clean_value (itemGet item "Telefono"))
    (pyOr (clean_value (itemGet item "Teléfono")) (clean_value (itemGet item "phone")))

/-- One column of the matched-row update (lines 407-431). -/
def updateCol (cols : List String) (item : Assoc) (r : Row) (c : String) : Row :=
  if itemHas item c ∧ c ≠ "Unnamed: 0" then
    if c = "WhatsApp" then
      let val := whatsappVal item
      if val ≠ "" ∧ looks_like_mobile val = false then r
      else rowSet r c val
    else if c = "Telefono" then
      let val := telefonoVal item
      if val ≠ "" ∧ looks_like_mobile val = true then
        if "WhatsApp" ∈ cols then r else rowSet r c val
      else rowSet r c val
    else rowSet r c (itemGetD item c (itemGet r c))
  else r

/-- The matched-row update: iterate the existing columns in order. -/
def updateRow (cols : List String) (r : Row) (item : Assoc) : Row :=
  cols.foldl (updateCol cols item) r

/-- One column of the appended row (lines 434-458). -/
def newRowCol (cols : List String) (item : Assoc) (nrows : Nat) (r : Row) (c : String) : Row :=
  if itemHas item c then
    if c = "WhatsApp" then
      let val := whatsappVal item
      if val ≠ "" ∧ looks_like_mobile val = false then r
      else rowSet r c val
    else if c = "Telefono" then
      let val := telefonoVal item
      if val ≠ "" ∧ looks_like_mobile val = true then
        if "WhatsApp" ∈ cols then r else rowSet r c val
      else rowSet r c val
    else rowSet r c (clean_value (itemGetD item c ""))
  else if c = "Unnamed: 0" then rowSet r c (toString nrows)
  else r

/-- The appended row for an unmatched item: starts with every existing
column empty, then fills from the item. -/
def newRowFor (cols : List String) (nrows : Nat) (item : Assoc) : Row :=
  cols.foldl (newRowCol cols item nrows) (cols.map (fun c => (c, "")))

/-- One iteration of the merge loop (lines 391-461): match the item
key against the static `existing_map`; update the matched row in
place, or append a fresh row. -/
def mergeStep (cols : List String) (keyCol : String) (kp : List String)
    (origRows : List Row) (rs : List Row) (item : Assoc) : List Row :=
  let nkey := normalize_key (itemKeyVal kp item)
  match existingIdx keyCol origRows nkey with
  | some idx => rs.set idx (updateRow cols (rs.getD idx []) item)
  | none => rs ++ [newRowFor cols rs.length item]

/-- The in-memory data transformation of
`OutputWriter.merge_into_existing_excel` (lines 306-461): strip the
column names, choose the key column, pre-clean the incoming items and
fold the merge loop over them. -/
def merge_into_existing_excel_df (df0 : ExcelDF) (data : List Assoc) (kp : List String) : ExcelDF :=
  let df := stripDfCols df0
  let keyCol := chooseKeyCol df.cols kp
  let filtered := data.map prefilterItem
  ⟨df.cols, filtered.foldl (mergeStep df.cols keyCol kp df.rows) df.rows⟩

/-! ### `compare_with_existing` (pre_merge.py lines 59-117) -/

/-- Membership of a normalized key in `existing_by_name`: master rows
whose raw stripped name is truthy contribute their normalized name. -/
def inByName (rows : List Row) (k : String) : Bool :=
  rows.any (fun r =>
    let n := pyStrip (itemGet r "Nombre")
    (n != "") && (normalize_key n == k))

/-- Membership of a normalized key in `existing_by_website`: master
rows whose raw stripped website is truthy and not `N/A` contribute
their normalized website. -/
def inByWebsite (rows : List Row) (k : String) : Bool :=
  rows.any (fun r =>
    let w := pyStrip (itemGet r "Pagina Web")
    (w != "") && (w != "N/A") && (normalize_key w == k))

/-- `name_key` of a candidate (line 94). -/
def nameKeyOf (item : Assoc) : String :=
  normalize_key (pyStrip (itemGet item "Nombre"))

/-- `website_key` of a candidate (line 95): empty unless the raw
website is truthy and not `N/A`. -/
def websiteKeyOf (item : Assoc) : String :=
  let w := pyStrip (itemGet item "Página Web")
  if w ≠ "" ∧ w ≠ "N/A" then normalize_key w else ""

/-- `duplicated_by_name` (line 97): no truthiness guard on the key. -/
def dupByName (rows : List Row) (item : Assoc) : Bool :=
  inByName rows (nameKeyOf item)

/-- `duplicated_by_website` (line 98): the key must be truthy. -/
def dupByWebsite (rows : List Row) (item : Assoc) : Bool :=
  (websiteKeyOf item != "") && inByWebsite rows (websiteKeyOf item)

/-- A candidate is a duplicate if either signal fires (line 100). -/
def isDup (rows : List Row) (item : Assoc) : Bool :=
  dupByName rows item || dupByWebsite rows item

/-- The classification loop of `compare_with_existing`: partition the
candidates into `(nuevos, duplicados)` preserving input order. -/
def compare_with_existing (rows : List Row) : List Assoc → List Assoc × List Assoc
  | [] => ([], [])
  | it :: rest =>
    let p := compare_with_existing rows rest
    if isDup rows it then (p.1, it :: p.2) else (it :: p.1, p.2)

/-- `compare_with_existing` on a freshly read master file (the column
names are stripped on read, lines 68-69). -/
def compare_with_existing_df (df : ExcelDF) (items : List Assoc) : List Assoc × List Assoc :=
  compare_with_existing (stripDfCols df).rows items


/-! ### Filesystem wrapper of `merge_into_existing_excel`
(output_writer.py lines 306-533)

The filesystem is an association list from path strings to workbook
contents.  Each primitive I/O call of the Python code is one numbered
operation; `failAt = some k` makes operation `k` raise before taking
effect, modelling an I/O failure at that point, and the run stops
with the filesystem as mutated so far. -/

inductive FsOp where
  | read (p : String)
  | write (p : String)
  | remove (p : String)
  | move (src dst : String)
deriving DecidableEq, Repr

structure MergeFS where
  files : List (String × ExcelDF)
deriving DecidableEq, Repr

/-- Look a path up in the filesystem. -/
def fsRead (fs : MergeFS) (p : String) : Option ExcelDF :=
  (fs.files.find? (fun e => e.1 = p)).map Prod.snd

/-- Create or overwrite a file. -/
def fsWrite (fs : MergeFS) (p : String) (c : ExcelDF) : MergeFS :=
  ⟨(p, c) :: fs.files.filter (fun e => e.1 ≠ p)⟩

/-- `os.remove`. -/
def fsRemove (fs : MergeFS) (p : String) : MergeFS :=
  ⟨fs.files.filter (fun e => e.1 ≠ p)⟩

/-- `shutil.move`. -/
def fsMove (fs : MergeFS) (src dst : String) : MergeFS :=
  match fsRead fs src with
  | some c => fsWrite (fsRemove fs src) dst c
  | none => fs

inductive MergeError where
  | masterNotFound
  | ioFailure (k : Nat)
deriving DecidableEq, Repr

inductive MergeOutcome where
  | ok (mergedPath preservedPath : Option String) (trace : List FsOp)
  | err (e : MergeError)
deriving DecidableEq, Repr

/-- `OutputWriter.merge_into_existing_excel`.  The master file is
`dir ++ "/" ++ fname ++ ext` (mirroring `os.path.dirname`,
`os.path.splitext`).  Operation indices: 0 `load_workbook(existing)`,
1 `pd.read_excel(existing)`, 2 `df.to_excel(temp)`,
3 `load_workbook(temp)`, 4 `wb.save(merged)`, 5 `os.remove(temp)`,
6 `shutil.move(existing, renamed)`.  `os.makedirs` touches no file
entry and is not numbered.  Returns `(None, None)` on empty input
before any filesystem access (line 306-308), raises
`FileNotFoundError` when the master is missing (lines 337-338). -/
def merge_into_existing_excel (fs : MergeFS) (dir fname ext : String)
    (data : List Assoc) (kp : List String) (outDir : Option String) (ts : String)
    (failAt : Option Nat) : MergeFS × MergeOutcome :=
  if data = [] then (fs, .ok none none [])
  else
    let existingPath := dir ++ "/" ++ fname ++ ext
    match fsRead fs existingPath with
    | none => (fs, .err .masterNotFound)
    | some df =>
      if failAt = some 0 then (fs, .err (.ioFailure 0)) else
      if failAt = some 1 then (fs, .err (.ioFailure 1)) else
      let merged := merge_into_existing_excel_df df data kp
      let outputDir := outDir.getD (dir ++ "/../merged")
      let mergedPath := outputDir ++ "/" ++ fname ++ ext
      let tempPath := mergedPath ++ ".tmp" ++ ext
      if failAt = some 2 then (fs, .err (.ioFailure 2)) else
      let fs1 := fsWrite fs tempPath merged
      if failAt = some 3 then (fs1, .err (.ioFailure 3)) else
      if failAt = some 4 then (fs1, .err (.ioFailure 4)) else
      let fs2 := fsWrite fs1 mergedPath merged
      if failAt = some 5 then (fs2, .err (.ioFailure 5)) else
      let fs3 := fsRemove fs2 tempPath
      let renamedPath :=
        if (fsRead fs3 (dir ++ "/" ++ fname ++ " - original" ++ ext)).isSome
        then dir ++ "/" ++ fname ++ " - original " ++ ts ++ ext
        else dir ++ "/" ++ fname ++ " - original" ++ ext
      if failAt = some 6 then (fs3, .err (.ioFailure 6)) else
      let fs4 := fsMove fs3 existingPath renamedPath
      (fs4, .ok (some mergedPath) (some renamedPath)
        [.read existingPath, .read existingPath, .write tempPath, .read tempPath,
         .write mergedPath, .remove tempPath, .move existingPath renamedPath])

/-! ### `load_businesses_with_contact_info`
(business_processor.py lines 227-319) and
`_process_text_search_result` (lines 464-516) -/

/-- A raw Places text-search result, restricted to the fields the
collector logic reads. -/
structure Business where
  id : Option String
  nationalPhoneNumber : Option String
  internationalPhoneNumber : Option String
deriving DecidableEq, Repr

/-- The processed record, restricted to the fields the collector logic
reads (`_process_text_search_result` copies `id` into both `place_id`
and `id`, and sets `formatted_phone_number` to the national number or,
failing that, the international one). -/
structure ProcessedBiz where
  place_id : Option String
  formatted_phone_number : Option String
deriving DecidableEq, Repr

/-- Python truthiness of an optional string. -/
def pyTruthy : Option String → Bool
  | none => false
  | some s => s ≠ ""

/-- Python `a or b` on optional strings. -/
def pyOrOpt (a b : Option String) : Option String :=
  if pyTruthy a then a else b

/-- `_process_text_search_result`, restricted to the fields consumed
by `load_businesses_with_contact_info`. -/
def process_text_search_result (b : Business) : ProcessedBiz :=
  ⟨b.id, pyOrOpt b.nationalPhoneNumber b.internationalPhoneNumber⟩

/-- `phone and phone.strip()` — the record has a usable phone. -/
def hasUsablePhone (p : ProcessedBiz) : Bool :=
  match p.formatted_phone_number with
  | some s => (s != "") && (pyStrip s != "")
  | none => false

/-- `business.get('id') or business.get('place_id')`, both fields
being the same `id` value; `""` stands for a falsy identifier. -/
def pidOf (p : ProcessedBiz) : String :=
  p.place_id.getD ""

/-- The per-attempt dedup loop (lines 298-308): append a business to
the accumulator only when its identifier is truthy and unseen. -/
def addLoop : List ProcessedBiz → List ProcessedBiz → List String →
    List ProcessedBiz × List String
  | [], acc, ids => (acc, ids)
  | b :: rest, acc, ids =>
    let pid := pidOf b
    if pid ≠ "" ∧ pid ∉ ids then addLoop rest (acc ++ [b]) (ids ++ [pid])
    else addLoop rest acc ids

/-- The collector's running state. -/
structure CollectState where
  withPhone : List ProcessedBiz
  withoutPhone : List ProcessedBiz
  attempts : Nat
deriving Repr

/-- `variations_to_try` (lines 246-254). -/
def variationsToTry (sv : String) : List String :=
  if sv ≠ "" then [sv, sv ++ " zona", sv ++ " area", sv ++ " sector", sv ++ " barrio"]
  else [sv]

/-- The attempt loop of `load_businesses_with_contact_info` (lines
256-310).  `search` is the external Places text-search oracle,
taking the varied query term and the search limit. -/
def collectGo (search : String → Nat → List Business) (businessType : String)
    (target : Nat) : List String → CollectState → CollectState
  | [], st => st
  | v :: vs, st =>
    if target ≤ st.withPhone.length then st
    else if 5 < st.attempts + 1 then st
    else
      let st1 : CollectState := ⟨st.withPhone, st.withoutPhone, st.attempts + 1⟩
      let variedType := if v ≠ "" then businessType ++ " " ++ v else businessType
      let searchLimit := max ((target - st1.withPhone.length) * 3) 60
      let businesses := search variedType searchLimit
      if businesses = [] then collectGo search businessType target vs st1
      else
        let processed := businesses.map process_text_search_result
        let wp := processed.filter hasUsablePhone
        let wop := processed.filter (fun b => !(hasUsablePhone b))
        let ids0 := st1.withPhone.map pidOf
        let r1 := addLoop wp st1.withPhone ids0
        let r2 := addLoop wop st1.withoutPhone r1.2
        collectGo search businessType target vs ⟨r1.1, r2.1, st1.attempts⟩

/-- `load_businesses_with_contact_info`: run the attempt loop from the
empty state and return the first `min(len, target)` businesses that
have a phone. -/
def load_businesses_with_contact_info (search : String → Nat → List Business)
    (businessType searchVariation : String) (target : Nat) : List ProcessedBiz :=
  let st := collectGo search businessType target (variationsToTry searchVariation)
    ⟨[], [], 0⟩
  st.withPhone.take (min st.withPhone.length target)

/-! ### Concrete instances used by scenario theorems and
counterexamples -/

/-- C6 master: one row, name `Cafe Sol`, website `cafesol.com`, empty
mobile cell, landline `6011234567`. -/
def cafeSolMaster : ExcelDF :=
  ⟨["Nombre", "WhatsApp", "Telefono", "Pagina Web"],
   [[("Nombre", "Cafe Sol"), ("WhatsApp", ""), ("Telefono", "6011234567"),
     ("Pagina Web", "cafesol.com")]]⟩

/-- The C6 new record in the key shape consumed by the merge engine
(the output workbook columns are unaccented after
`write_to_excel`'s renaming). -/
def cafeSolNewMerge : Assoc :=
  [("Nombre", "Cafe Sol"), ("Pagina Web", "https://www.cafesol.com/"),
   ("WhatsApp", "3001234567")]

/-- The C6 new record in the key shape consumed by
`compare_with_existing` (which reads the accented `Página Web`). -/
def cafeSolNewClassify : Assoc :=
  [("Nombre", "Cafe Sol"), ("Página Web", "https://www.cafesol.com/"),
   ("WhatsApp", "3001234567")]

/-- C3 counterexample master: its single row has an empty key cell. -/
def emptyKeyMaster : ExcelDF :=
  ⟨["Nombre", "WhatsApp"], [[("Nombre", ""), ("WhatsApp", "3009990000")]]⟩

/-- C3 counterexample record: no website, empty name — its key
normalizes to the empty string. -/
def emptyKeyRecord : Assoc :=
  [("Nombre", ""), ("WhatsApp", "3001112222")]

/-- C7 counterexample master. -/
def orderMaster : ExcelDF :=
  ⟨["Nombre", "WhatsApp"], [[("Nombre", "Acme"), ("WhatsApp", "")]]⟩

/-- C7 counterexample records: same normalized key, different mobile
numbers. -/
def orderRec1 : Assoc := [("Nombre", "Acme"), ("WhatsApp", "3001111111")]

def orderRec2 : Assoc := [("Nombre", "Acme"), ("WhatsApp", "3002222222")]


/-- The empty filesystem. -/
def emptyFS : MergeFS := ⟨[]⟩

/-- A one-file filesystem holding a master workbook at `d/m.x`,
used to witness the merge contract theorems. -/
def witnessFS : MergeFS :=
  ⟨[("d/m.x", ⟨["Nombre"], [[("Nombre", "A")]]⟩)]⟩

/-- The column names of a row, in order. -/
def rowKeys (r : Row) : List String := r.map Prod.fst

/-! ### Basic facts about the normalization pipeline -/

theorem ws_not_keyChar {c : Char} (h : pyWhitespace c = true) : isKeyChar c = false := by
  simp only [pyWhitespace, Bool.or_eq_true, decide_eq_true_eq] at h
  rcases h with ((((h | h) | h) | h) | h) | h <;> subst h <;> decide

theorem keyChar_not_ws {c : Char} (h : isKeyChar c = true) : pyWhitespace c = false := by
  cases hw : pyWhitespace c
  · rfl
  · have := ws_not_keyChar hw
    rw [this] at h
    exact absurd h (by decide)

theorem map_id_of_mem {α : Type} (f : α → α) (l : List α) (h : ∀ c ∈ l, f c = c) :
    l.map f = l := by
  induction l with
  | nil => rfl
  | cons a t ih =>
    simp only [List.map_cons, h a (List.mem_cons_self a t),
      ih (fun c hc => h c (List.mem_cons_of_mem a hc))]

theorem dropWhile_eq_self_of {p : Char → Bool} {l : List Char}
    (h : ∀ c ∈ l, p c = false) : l.dropWhile p = l := by
  cases l with
  | nil => rfl
  | cons a t => simp [List.dropWhile_cons, h a (List.mem_cons_self a t)]

theorem keyChar_lower_id {c : Char} (h : isKeyChar c = true) : pyLowerChar c = c := by
  simp only [isKeyChar, Bool.or_eq_true, Bool.and_eq_true, decide_eq_true_eq] at h
  unfold pyLowerChar
  have : ('A' ≤ c && c ≤ 'Z') = false := by
    simp only [Bool.and_eq_false_iff, decide_eq_false_iff_not]
    rcases h with ⟨h1, _⟩ | ⟨_, h2⟩
    · right; intro hZ
      exact absurd (le_trans h1 hZ) (by decide)
    · left; intro hA
      exact absurd (le_trans hA h2) (by decide)
  rw [this]
  simp

theorem stripList_of_no_ws {l : List Char} (h : ∀ c ∈ l, pyWhitespace c = false) :
    pyStripList l = l := by
  unfold pyStripList
  rw [dropWhile_eq_self_of h]
  rw [dropWhile_eq_self_of (fun c hc => h c (List.mem_reverse.mp hc))]
  exact List.reverse_reverse l

theorem dropLeading_of_no_bad {pat l : List Char} (bad : Char)
    (hb : bad ∈ pat) (hbad : isKeyChar bad = false)
    (h : ∀ c ∈ l, isKeyChar c = true) : dropLeading pat l = l := by
  unfold dropLeading
  have : pat.isPrefixOf l = false := by
    by_contra hc
    have hpre : pat <+: l := by
      have := Bool.of_not_eq_false hc
      exact List.isPrefixOf_iff_prefix.mp this
    obtain ⟨t, ht⟩ := hpre
    have hm : bad ∈ l := ht ▸ List.mem_append_left t hb
    have htrue := h bad hm
    rw [hbad] at htrue
    exact absurd htrue (by decide)
  rw [this]
  simp

theorem dropScheme_of_keyChars {l : List Char}
    (h : ∀ c ∈ l, isKeyChar c = true) : dropScheme l = l := by
  unfold dropScheme
  have h1 : ("https://".toList).isPrefixOf l = false := by
    by_contra hc
    have hpre : ("https://".toList) <+: l := List.isPrefixOf_iff_prefix.mp (Bool.of_not_eq_false hc)
    obtain ⟨t, ht⟩ := hpre
    have : ':' ∈ l := ht ▸ List.mem_append_left t (by decide)
    have := h _ this
    exact absurd this (by decide)
  have h2 : ("http://".toList).isPrefixOf l = false := by
    by_contra hc
    have hpre : ("http://".toList) <+: l := List.isPrefixOf_iff_prefix.mp (Bool.of_not_eq_false hc)
    obtain ⟨t, ht⟩ := hpre
    have : ':' ∈ l := ht ▸ List.mem_append_left t (by decide)
    have := h _ this
    exact absurd this (by decide)
  rw [h1, h2]
  simp

/-- C9 core lemma: `normalize_key` is the identity on strings all of
whose characters are in `[a-z0-9]`. -/
theorem normalize_key_of_keyChars {l : List Char}
    (h : ∀ c ∈ l, isKeyChar c = true) : normalize_key ⟨l⟩ = (⟨l⟩ : String) := by
  have hmap : l.map pyLowerChar = l :=
    map_id_of_mem pyLowerChar l (fun c hc => keyChar_lower_id (h c hc))
  unfold normalize_key
  simp only [show (String.mk l).toList = l from rfl, hmap]
  rw [stripList_of_no_ws (fun c hc => keyChar_not_ws (h c hc))]
  rw [dropScheme_of_keyChars h]
  rw [dropLeading_of_no_bad '.' (by decide) (by decide) h]
  rw [List.filter_eq_self.mpr h]

/-- Digit-list-level agreement of the two phone classifiers, on the
region where they coincide. -/
theorem classifiers_agree_digits (d : List Char)
    (h : d.length = 10 ∨ ("57".toList).isPrefixOf d = true ∨ ("3".toList).isPrefixOf d = false) :
    ("3".toList).isPrefixOf (if ("57".toList).isPrefixOf d then d.drop 2 else d)
    = (("573".toList).isPrefixOf d || (d.length = 10 && ("3".toList).isPrefixOf d)) := by
  match d with
  | [] => simp [List.isPrefixOf]
  | [c] =>
    simp only [List.isPrefixOf, Bool.and_eq_true, List.length_cons, List.length_nil]
    by_cases hc3 : c = '3'
    · subst hc3
      exfalso
      rcases h with h | h | h
      · exact absurd h (by decide)
      · exact absurd h (by decide)
      · exact absurd h (by decide)
    · simp [List.isPrefixOf, beq_eq_false_iff_ne.mpr (Ne.symm hc3), Ne.symm hc3]
  | c1 :: c2 :: t =>
    by_cases hc5 : c1 = '5'
    · subst hc5
      by_cases hc7 : c2 = '7'
      · subst hc7
        simp [List.isPrefixOf]
      · simp [List.isPrefixOf, beq_eq_false_iff_ne.mpr (Ne.symm hc7)]
    · by_cases hc3 : c1 = '3'
      · subst hc3
        have h57 : ("57".toList).isPrefixOf ('3' :: c2 :: t) = false := by
          simp [List.isPrefixOf]
        have h573 : ("573".toList).isPrefixOf ('3' :: c2 :: t) = false := by
          simp [List.isPrefixOf]
        rw [h57] at h
        have h3 : ("3".toList).isPrefixOf ('3' :: c2 :: t) = true := by
          simp [List.isPrefixOf]
        rw [h3] at h
        have hlen : ('3' :: c2 :: t).length = 10 := by
          rcases h with h | h | h
          · exact h
          · exact absurd h (by decide)
          · exact absurd h (by decide)
        simp [h57, h573, h3, hlen]
      · have hne5 : ('5' == c1) = false := beq_eq_false_iff_ne.mpr (Ne.symm hc5)
        have hne3 : ('3' == c1) = false := beq_eq_false_iff_ne.mpr (Ne.symm hc3)
        simp [List.isPrefixOf, hne5, hne3]

/-- C10 (amended): the merge-time classifier `looks_like_mobile` and
the processing-time classifier agree on every phone whose digit
string has exactly 10 digits, or starts with the country code `57`,
or does not start with `3`. -/
theorem classifiers_agree (phone : String)
    (h : (digitsOf phone).length = 10
       ∨ ("57".toList).isPrefixOf (digitsOf phone) = true
       ∨ ("3".toList).isPrefixOf (digitsOf phone) = false) :
    looks_like_mobile phone = processor_classifies_mobile phone := by
  by_cases hp : phone = ""
  · subst hp; decide
  · unfold looks_like_mobile processor_classifies_mobile
    rw [if_neg hp]
    dsimp only
    exact classifiers_agree_digits (digitsOf phone) h

/-- Witness for `classifiers_agree` at the 10-digit mobile number
`"3001234567"`. -/
theorem classifiers_agree_witness :
    looks_like_mobile "3001234567" = processor_classifies_mobile "3001234567" :=
  classifiers_agree "3001234567" (by decide)

/-- C10 counterexample: on the phone `"345"` (digits start with `3`
but there are not exactly 10 of them and no `57` country code) the
merge-time classifier says mobile while the processing-time classifier
says landline, so the two classifiers do not agree on every raw phone
string. -/
theorem classifiers_disagree_on_345 :
    looks_like_mobile "345" = true ∧ processor_classifies_mobile "345" = false := by
  decide

/-- C9: `normalize_key` is idempotent — the claim as stated. -/
theorem normalize_key_idem (x : String) :
    normalize_key (normalize_key x) = normalize_key x := by
  have h : ∀ c ∈ (normalize_key x).toList, isKeyChar c = true := by
    intro c hc
    unfold normalize_key at hc
    exact (List.mem_filter.mp hc).2
  exact normalize_key_of_keyChars h
/-- C6: with master `cafeSolMaster` and the Cafe Sol record, the
record is classified a duplicate (by website), and merging updates the
one existing row's mobile column to `3001234567` while leaving the
landline column at `6011234567`; no row is appended. -/
theorem cafe_sol_duplicate_update_scenario :
    compare_with_existing_df cafeSolMaster [cafeSolNewClassify] = ([], [cafeSolNewClassify])
  ∧ dupByWebsite (stripDfCols cafeSolMaster).rows cafeSolNewClassify = true
  ∧ merge_into_existing_excel_df cafeSolMaster [cafeSolNewMerge] ["Pagina Web", "Nombre"] =
      ⟨["Nombre", "WhatsApp", "Telefono", "Pagina Web"],
       [[("Nombre", "Cafe Sol"), ("WhatsApp", "3001234567"), ("Telefono", "6011234567"),
         ("Pagina Web", "https://www.cafesol.com/")]]⟩ :=
  ⟨rfl, rfl, rfl⟩

/-- C3 counterexample: both the master row's key and the incoming
record's key normalize to the empty string, yet the merge engine
treats the record as a match and merges it into that row (the row's
mobile cell is overwritten and no row is appended), contradicting the
claim that an empty normalized key never counts as a match. -/
theorem empty_key_merged_into_empty_key_row :
    normalize_key (itemGet emptyKeyRecord "Nombre") = ""
  ∧ normalize_key (itemGet ((stripDfCols emptyKeyMaster).rows.getD 0 []) "Nombre") = ""
  ∧ merge_into_existing_excel_df emptyKeyMaster [emptyKeyRecord] ["Pagina Web", "Nombre"] =
      ⟨["Nombre", "WhatsApp"], [[("Nombre", ""), ("WhatsApp", "3001112222")]]⟩ :=
  ⟨rfl, rfl, rfl⟩

/-- C7 counterexample: two records that match the same master row but
carry different mobile numbers produce different merged datasets under
the two processing orders (the matched-row update is last-writer-wins),
so the final merged content is not permutation-invariant. -/
theorem merge_result_depends_on_order :
    merge_into_existing_excel_df orderMaster [orderRec1, orderRec2] ["Pagina Web", "Nombre"] ≠
    merge_into_existing_excel_df orderMaster [orderRec2, orderRec1] ["Pagina Web", "Nombre"] := by
  decide

/-- C5 counterexample: with an empty new-record batch and a master
path that does not exist, the merge returns the successful empty
result instead of failing with `MasterNotFound` (the empty-input check
precedes the existence check). -/
theorem empty_batch_missing_master_succeeds :
    fsRead emptyFS ("d" ++ "/" ++ "m" ++ ".xlsx") = none
  ∧ merge_into_existing_excel emptyFS "d" "m" ".xlsx" [] ["Pagina Web", "Nombre"] none "ts" none
      = (emptyFS, .ok none none []) :=
  ⟨rfl, rfl⟩

/-! ### Filesystem lemmas -/

theorem find_key_filter_ne (l : List (String × ExcelDF)) (p q : String) (h : q ≠ p) :
    (l.filter (fun e => e.1 ≠ p)).find? (fun e => e.1 = q)
      = l.find? (fun e => e.1 = q) := by
  induction l with
  | nil => rfl
  | cons a t ih =>
    simp only [List.filter_cons]
    by_cases hap : a.1 = p
    · have e1 : decide (a.1 ≠ p) = false := by simp [hap]
      have e2 : decide (a.1 = q) = false := by
        simp only [decide_eq_false_iff_not]
        intro hq; exact h (hq.symm.trans hap)
      simp only [e1, Bool.false_eq_true, if_false, List.find?_cons, e2]
      exact ih
    · have e1 : decide (a.1 ≠ p) = true := by simp [hap]
      simp only [e1, if_true, List.find?_cons]
      by_cases haq : a.1 = q
      · simp only [haq, decide_True]
      · have e2 : decide (a.1 = q) = false := by simp [haq]
        simp only [e2]
        exact ih

theorem fsRead_fsWrite_same (fs : MergeFS) (p : String) (c : ExcelDF) :
    fsRead (fsWrite fs p c) p = some c := by
  simp [fsRead, fsWrite, List.find?_cons]

theorem fsRead_fsWrite_ne (fs : MergeFS) (p : String) (c : ExcelDF) (q : String)
    (h : q ≠ p) : fsRead (fsWrite fs p c) q = fsRead fs q := by
  unfold fsRead fsWrite
  have hpq : decide (p = q) = false := by
    simp only [decide_eq_false_iff_not]
    intro hq; exact h hq.symm
  simp only [List.find?_cons, hpq]
  rw [find_key_filter_ne fs.files p q h]

theorem fsRead_fsRemove_ne (fs : MergeFS) (p q : String) (h : q ≠ p) :
    fsRead (fsRemove fs p) q = fsRead fs q := by
  unfold fsRead fsRemove
  rw [find_key_filter_ne fs.files p q h]

theorem ep_ne_mergedPath (dir f ext : String) :
    dir ++ "/" ++ f ++ ext ≠ (dir ++ "/../merged") ++ "/" ++ f ++ ext := by
  intro h
  have hl := congrArg String.length h
  simp only [String.length_append] at hl
  have h1 : ("/" : String).length = 1 := rfl
  have h2 : ("/../merged" : String).length = 10 := rfl
  rw [h1, h2] at hl
  omega

theorem ep_ne_tempPath (dir f ext : String) :
    dir ++ "/" ++ f ++ ext ≠ ((dir ++ "/../merged") ++ "/" ++ f ++ ext) ++ ".tmp" ++ ext := by
  intro h
  have hl := congrArg String.length h
  simp only [String.length_append] at hl
  have h1 : ("/" : String).length = 1 := rfl
  have h2 : ("/../merged" : String).length = 10 := rfl
  have h3 : (".tmp" : String).length = 4 := rfl
  rw [h1, h2, h3] at hl
  omega


/-- C1: for a non-empty batch and the default output directory, a
successful merge has the `shutil.move` of the master as its very last
filesystem operation, after the merged artifact was written (the write
occurs strictly earlier in the trace); the file then found at the
preserved-original path is exactly the master's pre-merge content.
On any failure (`MasterNotFound` or an I/O failure at any step) the
master file at its path is untouched — neither renamed nor
overwritten. -/
theorem merge_non_destructive_and_atomic
    (fs : MergeFS) (dir fname ext : String) (data : List Assoc) (kp : List String)
    (ts : String) (failAt : Option Nat) (hdata : data ≠ []) :
    (∀ fs' mp pp tr,
        merge_into_existing_excel fs dir fname ext data kp none ts failAt
          = (fs', .ok (some mp) (some pp) tr) →
        tr.getLast? = some (.move (dir ++ "/" ++ fname ++ ext) pp)
      ∧ FsOp.write mp ∈ tr.dropLast
      ∧ fsRead fs' pp = fsRead fs (dir ++ "/" ++ fname ++ ext))
  ∧ (∀ fs' e,
        merge_into_existing_excel fs dir fname ext data kp none ts failAt
          = (fs', .err e) →
        fsRead fs' (dir ++ "/" ++ fname ++ ext) = fsRead fs (dir ++ "/" ++ fname ++ ext)) := by
  unfold merge_into_existing_excel
  rw [if_neg hdata]
  cases hread : fsRead fs (dir ++ "/" ++ fname ++ ext) with
  | none =>
    simp only [hread]
    constructor
    · intro fs' mp pp tr hrun
      injection hrun with ha hb
      injection hb
    · intro fs' e hrun
      injection hrun with ha hb
      subst ha
      exact hread
  | some df =>
    simp only [hread, Option.getD_none]
    by_cases h0 : failAt = some 0
    · rw [if_pos h0]
      refine ⟨fun fs' mp pp tr hrun => ?_, fun fs' e hrun => ?_⟩
      · injection hrun with ha hb; injection hb
      · injection hrun with ha hb; subst ha; exact hread
    · rw [if_neg h0]
      by_cases h1 : failAt = some 1
      · rw [if_pos h1]
        refine ⟨fun fs' mp pp tr hrun => ?_, fun fs' e hrun => ?_⟩
        · injection hrun with ha hb; injection hb
        · injection hrun with ha hb; subst ha; exact hread
      · rw [if_neg h1]
        by_cases h2 : failAt = some 2
        · rw [if_pos h2]
          refine ⟨fun fs' mp pp tr hrun => ?_, fun fs' e hrun => ?_⟩
          · injection hrun with ha hb; injection hb
          · injection hrun with ha hb; subst ha; exact hread
        · rw [if_neg h2]
          by_cases h3 : failAt = some 3
          · rw [if_pos h3]
            refine ⟨fun fs' mp pp tr hrun => ?_, fun fs' e hrun => ?_⟩
            · injection hrun with ha hb; injection hb
            · injection hrun with ha hb; subst ha
              rw [fsRead_fsWrite_ne fs _ _ _ (ep_ne_tempPath dir fname ext)]
              exact hread
          · rw [if_neg h3]
            by_cases h4 : failAt = some 4
            · rw [if_pos h4]
              refine ⟨fun fs' mp pp tr hrun => ?_, fun fs' e hrun => ?_⟩
              · injection hrun with ha hb; injection hb
              · injection hrun with ha hb; subst ha
                rw [fsRead_fsWrite_ne fs _ _ _ (ep_ne_tempPath dir fname ext)]
                exact hread
            · rw [if_neg h4]
              by_cases h5 : failAt = some 5
              · rw [if_pos h5]
                refine ⟨fun fs' mp pp tr hrun => ?_, fun fs' e hrun => ?_⟩
                · injection hrun with ha hb; injection hb
                · injection hrun with ha hb; subst ha
                  rw [fsRead_fsWrite_ne _ _ _ _ (ep_ne_mergedPath dir fname ext)]
                  rw [fsRead_fsWrite_ne fs _ _ _ (ep_ne_tempPath dir fname ext)]
                  exact hread
              · rw [if_neg h5]
                by_cases h6 : failAt = some 6
                · rw [if_pos h6]
                  refine ⟨fun fs' mp pp tr hrun => ?_, fun fs' e hrun => ?_⟩
                  · injection hrun with ha hb; injection hb
                  · injection hrun with ha hb; subst ha
                    rw [fsRead_fsRemove_ne _ _ _ (ep_ne_tempPath dir fname ext)]
                    rw [fsRead_fsWrite_ne _ _ _ _ (ep_ne_mergedPath dir fname ext)]
                    rw [fsRead_fsWrite_ne fs _ _ _ (ep_ne_tempPath dir fname ext)]
                    exact hread
                · rw [if_neg h6]
                  refine ⟨fun fs' mp pp tr hrun => ?_, fun fs' e hrun => ?_⟩
                  · injection hrun with ha hb
                    injection hb with hmp hpp htr
                    injection hmp with hmp
                    injection hpp with hpp
                    subst ha; subst hmp; subst hpp; subst htr
                    refine ⟨rfl, by simp, ?_⟩
                    have hep3 : fsRead (fsRemove (fsWrite (fsWrite fs
                        (dir ++ "/../merged" ++ "/" ++ fname ++ ext ++ ".tmp" ++ ext)
                        (merge_into_existing_excel_df df data kp))
                        (dir ++ "/../merged" ++ "/" ++ fname ++ ext)
                        (merge_into_existing_excel_df df data kp))
                        (dir ++ "/../merged" ++ "/" ++ fname ++ ext ++ ".tmp" ++ ext))
                        (dir ++ "/" ++ fname ++ ext) = some df := by
                      rw [fsRead_fsRemove_ne _ _ _ (ep_ne_tempPath dir fname ext)]
                      rw [fsRead_fsWrite_ne _ _ _ _ (ep_ne_mergedPath dir fname ext)]
                      rw [fsRead_fsWrite_ne fs _ _ _ (ep_ne_tempPath dir fname ext)]
                      exact hread
                    unfold fsMove
                    rw [hep3]
                    exact fsRead_fsWrite_same _ _ _
                  · injection hrun with ha hb
                    injection hb

/-- Witness for `merge_non_destructive_and_atomic` on a concrete
one-row master and a one-record batch. -/
theorem merge_non_destructive_and_atomic_witness :
    (∀ fs' mp pp tr,
        merge_into_existing_excel witnessFS "d" "m" ".x" [[("Nombre", "B")]] ["Nombre"]
            none "t" none
          = (fs', .ok (some mp) (some pp) tr) →
        tr.getLast? = some (.move ("d" ++ "/" ++ "m" ++ ".x") pp)
      ∧ FsOp.write mp ∈ tr.dropLast
      ∧ fsRead fs' pp = fsRead witnessFS ("d" ++ "/" ++ "m" ++ ".x"))
  ∧ (∀ fs' e,
        merge_into_existing_excel witnessFS "d" "m" ".x" [[("Nombre", "B")]] ["Nombre"]
            none "t" none
          = (fs', .err e) →
        fsRead fs' ("d" ++ "/" ++ "m" ++ ".x") = fsRead witnessFS ("d" ++ "/" ++ "m" ++ ".x")) :=
  merge_non_destructive_and_atomic witnessFS "d" "m" ".x" [[("Nombre", "B")]] ["Nombre"]
    "t" none (by decide)

/-- C5 (amended): the merge raises `MasterNotFound` exactly when the
batch is non-empty and the master path names no existing file; an
empty batch is a successful no-op regardless of the master path (the
empty-input check precedes the existence check). -/
theorem merge_error_contract
    (fs : MergeFS) (dir fname ext : String) (data : List Assoc) (kp : List String)
    (outDir : Option String) (ts : String) (failAt : Option Nat) :
    (data = [] →
      merge_into_existing_excel fs dir fname ext data kp outDir ts failAt
        = (fs, .ok none none []))
  ∧ (data ≠ [] → fsRead fs (dir ++ "/" ++ fname ++ ext) = none →
      merge_into_existing_excel fs dir fname ext data kp outDir ts failAt
        = (fs, .err .masterNotFound)) := by
  constructor
  · intro hdata
    unfold merge_into_existing_excel
    rw [if_pos hdata]
  · intro hdata hread
    unfold merge_into_existing_excel
    rw [if_neg hdata]
    simp only [hread]

/-- Witness for `merge_error_contract`: an empty batch on a missing
master is a successful no-op, and a non-empty batch on a missing
master fails with `MasterNotFound`. -/
theorem merge_error_contract_witness :
    merge_into_existing_excel emptyFS "d" "m" ".x" [] ["Nombre"] none "t" none
      = (emptyFS, .ok none none [])
  ∧ merge_into_existing_excel emptyFS "d" "m" ".x" [[("Nombre", "B")]] ["Nombre"] none "t" none
      = (emptyFS, .err .masterNotFound) :=
  ⟨(merge_error_contract emptyFS "d" "m" ".x" [] ["Nombre"] none "t" none).1 rfl,
   (merge_error_contract emptyFS "d" "m" ".x" [[("Nombre", "B")]] ["Nombre"] none "t" none).2
     (by decide) rfl⟩

/-! ### Schema lemmas (C2) -/

theorem foldl_preserve {α β : Type} {f : β → α → β} {P : β → Prop}
    (h : ∀ b a, P b → P (f b a)) : ∀ (l : List α) (b : β), P b → P (l.foldl f b) := by
  intro l
  induction l with
  | nil => intro b hb; exact hb
  | cons a t ih => intro b hb; exact ih _ (h b a hb)

theorem rowSet_keys (r : Row) (c v : String) : rowKeys (rowSet r c v) = rowKeys r := by
  unfold rowKeys rowSet
  induction r with
  | nil => rfl
  | cons a t ih =>
    simp only [List.map_cons, ih]
    by_cases h : a.1 = c
    · simp [h]
    · simp [h]

theorem updateCol_keys (cols : List String) (item : Assoc) (r : Row) (c : String) :
    rowKeys (updateCol cols item r c) = rowKeys r := by
  simp only [updateCol]
  repeat' split
  all_goals first | rfl | exact rowSet_keys _ _ _

theorem updateRow_keys (cols : List String) (r : Row) (item : Assoc) :
    rowKeys (updateRow cols r item) = rowKeys r := by
  unfold updateRow
  exact foldl_preserve (P := fun r' => rowKeys r' = rowKeys r)
    (fun b a hb => by
      show rowKeys (updateCol cols item b a) = rowKeys r
      rw [updateCol_keys]; exact hb) cols r rfl

theorem newRowCol_keys (cols : List String) (item : Assoc) (n : Nat) (r : Row) (c : String) :
    rowKeys (newRowCol cols item n r c) = rowKeys r := by
  simp only [newRowCol]
  repeat' split
  all_goals first | rfl | exact rowSet_keys _ _ _

theorem newRowFor_keys (cols : List String) (n : Nat) (item : Assoc) :
    rowKeys (newRowFor cols n item) = cols := by
  unfold newRowFor
  have hinit : rowKeys (cols.map (fun c => (c, ""))) = cols := by
    unfold rowKeys
    rw [List.map_map]
    exact map_id_of_mem _ cols (fun c _ => rfl)
  exact foldl_preserve (P := fun r' => rowKeys r' = cols)
    (fun b a hb => by
      show rowKeys (newRowCol cols item n b a) = cols
      rw [newRowCol_keys]; exact hb) cols _ hinit

theorem existingIdx_lt {keyCol : String} {rows : List Row} {nkey : String} {i : Nat}
    (h : existingIdx keyCol rows nkey = some i) : i < rows.length := by
  have hm := List.mem_of_find?_eq_some h
  rw [List.mem_reverse] at hm
  exact List.mem_range.mp hm

theorem mergeStep_preserves (C : List String) (keyCol : String) (kp : List String)
    (origRows rs : List Row) (item : Assoc)
    (hlen : origRows.length ≤ rs.length)
    (hkeys : ∀ r ∈ rs, rowKeys r = C) :
    origRows.length ≤ (mergeStep C keyCol kp origRows rs item).length
  ∧ ∀ r ∈ mergeStep C keyCol kp origRows rs item, rowKeys r = C := by
  unfold mergeStep
  cases hidx : existingIdx keyCol origRows (normalize_key (itemKeyVal kp item)) with
  | none =>
    simp only [hidx]
    constructor
    · rw [List.length_append]
      simp only [List.length_cons, List.length_nil]
      omega
    · intro r hr
      rcases List.mem_append.mp hr with h | h
      · exact hkeys r h
      · rw [List.mem_singleton.mp h]
        exact newRowFor_keys C _ item
  | some idx =>
    simp only [hidx]
    have hlt : idx < rs.length := lt_of_lt_of_le (existingIdx_lt hidx) hlen
    constructor
    · rw [List.length_set]
      exact hlen
    · intro r hr
      rcases List.mem_or_eq_of_mem_set hr with h | h
      · exact hkeys r h
      · subst h
        rw [updateRow_keys]
        have hmem : rs.getD idx [] ∈ rs := by
          rw [List.getD_eq_getElem _ _ hlt]
          exact List.getElem_mem hlt
        exact hkeys _ hmem

/-- C2: the merged artifact's column list is exactly the original
master's columns with whitespace trimmed, and every merged row
(updated or appended) carries exactly those columns — the merge never
introduces a column absent from the original file, and input fields
with no master column are dropped. -/
theorem merge_schema_immutable (df : ExcelDF) (data : List Assoc) (kp : List String)
    (hwf : ∀ r ∈ df.rows, rowKeys r = df.cols) :
    (merge_into_existing_excel_df df data kp).cols = df.cols.map pyStrip
  ∧ ∀ r ∈ (merge_into_existing_excel_df df data kp).rows,
      rowKeys r = df.cols.map pyStrip := by
  constructor
  · rfl
  · unfold merge_into_existing_excel_df
    dsimp only
    have hwf' : ∀ r ∈ (stripDfCols df).rows, rowKeys r = df.cols.map pyStrip := by
      intro r hr
      unfold stripDfCols at hr
      simp only [List.mem_map] at hr
      obtain ⟨r0, hr0, rfl⟩ := hr
      unfold rowKeys
      rw [List.map_map]
      have hc : (Prod.fst ∘ fun p : String × String => (pyStrip p.1, p.2))
          = pyStrip ∘ Prod.fst := rfl
      rw [hc, ← List.map_map]
      rw [show List.map Prod.fst r0 = rowKeys r0 from rfl, hwf r0 hr0]
    have hinv := foldl_preserve
      (P := fun rs => (stripDfCols df).rows.length ≤ rs.length
        ∧ ∀ r ∈ rs, rowKeys r = df.cols.map pyStrip)
      (f := mergeStep (stripDfCols df).cols
        (chooseKeyCol (stripDfCols df).cols kp) kp (stripDfCols df).rows)
      (fun rs it hP => mergeStep_preserves _ _ _ _ _ _ hP.1 hP.2)
      (data.map prefilterItem) (stripDfCols df).rows ⟨le_refl _, hwf'⟩
    exact hinv.2

/-- Witness for `merge_schema_immutable`: a master with an extra
input field `Extra` on the record; the merged frame keeps exactly the
master's trimmed columns. -/
theorem merge_schema_immutable_witness :
    (merge_into_existing_excel_df ⟨["Nombre ", "WhatsApp"],
        [[("Nombre ", "A"), ("WhatsApp", "")]]⟩
      [[("Nombre", "B"), ("Extra", "x"), ("WhatsApp", "3001111111")]]
      ["Pagina Web", "Nombre"]).cols = ["Nombre ", "WhatsApp"].map pyStrip
  ∧ ∀ r ∈ (merge_into_existing_excel_df ⟨["Nombre ", "WhatsApp"],
        [[("Nombre ", "A"), ("WhatsApp", "")]]⟩
      [[("Nombre", "B"), ("Extra", "x"), ("WhatsApp", "3001111111")]]
      ["Pagina Web", "Nombre"]).rows,
      rowKeys r = ["Nombre ", "WhatsApp"].map pyStrip :=
  merge_schema_immutable ⟨["Nombre ", "WhatsApp"], [[("Nombre ", "A"), ("WhatsApp", "")]]⟩
    [[("Nombre", "B"), ("Extra", "x"), ("WhatsApp", "3001111111")]]
    ["Pagina Web", "Nombre"] (by decide)

/-! ### Channel-exclusivity lemmas (C4) -/

theorem itemGet_rowSet_ne (r : Row) (c v c' : String) (h : c' ≠ c) :
    itemGet (rowSet r c v) c' = itemGet r c' := by
  induction r with
  | nil => rfl
  | cons a t ih =>
    unfold itemGet rowSet at ih ⊢
    simp only [List.map_cons, List.find?_cons]
    by_cases hac : a.1 = c
    · have e1 : decide ((c, v).1 = c') = false := by
        simp only [decide_eq_false_iff_not]
        exact fun hcc => h hcc.symm
      have e2 : decide (a.1 = c') = false := by
        simp only [decide_eq_false_iff_not]
        rw [hac]
        exact fun hcc => h hcc.symm
      simp only [if_pos hac, List.find?_cons, e1, e2]
      exact ih
    · simp only [if_neg hac]
      cases haq : decide (a.1 = c')
      · simp only [haq]
        exact ih
      · simp only [haq]

theorem itemGet_rowSet_self_or (r : Row) (c v : String) :
    itemGet (rowSet r c v) c = v ∨ itemGet (rowSet r c v) c = itemGet r c := by
  induction r with
  | nil => right; rfl
  | cons a t ih =>
    by_cases hac : a.1 = c
    · left
      unfold itemGet rowSet
      simp only [List.map_cons, if_pos hac, List.find?_cons]
      simp
    · unfold itemGet rowSet at ih ⊢
      simp only [List.map_cons, if_neg hac, List.find?_cons]
      cases haq : decide (a.1 = c)
      · simp only [haq]
        exact ih
      · exact absurd (of_decide_eq_true haq) hac

theorem itemGet_initRow (cols : List String) (k : String) :
    itemGet (cols.map (fun c => (c, ""))) k = "" := by
  induction cols with
  | nil => rfl
  | cons a t ih =>
    unfold itemGet at ih ⊢
    simp only [List.map_cons, List.find?_cons]
    cases h : decide ((a, "").1 = k)
    · simp only [h]
      exact ih
    · simp only [h]
      rfl

theorem updateCol_channel_step (cols : List String) (item : Assoc) (r0 r' : Row)
    (c : String) (hW : "WhatsApp" ∈ cols)
    (hT : itemGet r' "Telefono" = itemGet r0 "Telefono"
        ∨ looks_like_mobile (itemGet r' "Telefono") = false)
    (hWp : itemGet r' "WhatsApp" = itemGet r0 "WhatsApp"
        ∨ itemGet r' "WhatsApp" = ""
        ∨ looks_like_mobile (itemGet r' "WhatsApp") = true) :
    (itemGet (updateCol cols item r' c) "Telefono" = itemGet r0 "Telefono"
      ∨ looks_like_mobile (itemGet (updateCol cols item r' c) "Telefono") = false)
  ∧ (itemGet (updateCol cols item r' c) "WhatsApp" = itemGet r0 "WhatsApp"
      ∨ itemGet (updateCol cols item r' c) "WhatsApp" = ""
      ∨ looks_like_mobile (itemGet (updateCol cols item r' c) "WhatsApp") = true) := by
  unfold updateCol
  by_cases h1 : itemHas item c = true ∧ c ≠ "Unnamed: 0"
  · rw [if_pos h1]
    by_cases hcW : c = "WhatsApp"
    · rw [if_pos hcW]
      subst hcW
      dsimp only
      by_cases hskip : whatsappVal item ≠ ""
          ∧ looks_like_mobile (whatsappVal item) = false
      · rw [if_pos hskip]
        exact ⟨hT, hWp⟩
      · rw [if_neg hskip]
        constructor
        · rw [itemGet_rowSet_ne _ _ _ _ (by decide : ("Telefono" : String) ≠ "WhatsApp")]
          exact hT
        · rcases itemGet_rowSet_self_or r' "WhatsApp" (whatsappVal item) with h | h
          · by_cases hv : whatsappVal item = ""
            · right; left
              rw [h]
              exact hv
            · right; right
              rw [h]
              rcases Bool.eq_false_or_eq_true (looks_like_mobile (whatsappVal item)) with hm | hm
              · exact hm
              · exact absurd ⟨hv, hm⟩ hskip
          · rw [h]
            exact hWp
    · rw [if_neg hcW]
      by_cases hcT : c = "Telefono"
      · rw [if_pos hcT]
        subst hcT
        dsimp only
        by_cases hmob : telefonoVal item ≠ ""
            ∧ looks_like_mobile (telefonoVal item) = true
        · rw [if_pos hmob, if_pos hW]
          exact ⟨hT, hWp⟩
        · rw [if_neg hmob]
          constructor
          · rcases itemGet_rowSet_self_or r' "Telefono" (telefonoVal item) with h | h
            · right
              rw [h]
              by_cases hv : telefonoVal item = ""
              · rw [hv]
                decide
              · rcases Bool.eq_false_or_eq_true (looks_like_mobile (telefonoVal item)) with hm | hm
                · exact absurd ⟨hv, hm⟩ hmob
                · exact hm
            · rw [h]
              exact hT
          · rw [itemGet_rowSet_ne _ _ _ _ (by decide : ("WhatsApp" : String) ≠ "Telefono")]
            exact hWp
      · rw [if_neg hcT]
        constructor
        · rw [itemGet_rowSet_ne _ _ _ _ (fun hh => hcT hh.symm)]
          exact hT
        · rw [itemGet_rowSet_ne _ _ _ _ (fun hh => hcW hh.symm)]
          exact hWp
  · rw [if_neg h1]
    exact ⟨hT, hWp⟩

theorem newRowCol_channel_step (cols : List String) (item : Assoc) (n : Nat) (r' : Row)
    (c : String) (hW : "WhatsApp" ∈ cols)
    (hT : looks_like_mobile (itemGet r' "Telefono") = false)
    (hWp : itemGet r' "WhatsApp" = ""
        ∨ looks_like_mobile (itemGet r' "WhatsApp") = true) :
    looks_like_mobile (itemGet (newRowCol cols item n r' c) "Telefono") = false
  ∧ (itemGet (newRowCol cols item n r' c) "WhatsApp" = ""
      ∨ looks_like_mobile (itemGet (newRowCol cols item n r' c) "WhatsApp") = true) := by
  unfold newRowCol
  by_cases h1 : itemHas item c = true
  · rw [if_pos h1]
    by_cases hcW : c = "WhatsApp"
    · rw [if_pos hcW]
      subst hcW
      dsimp only
      by_cases hskip : whatsappVal item ≠ ""
          ∧ looks_like_mobile (whatsappVal item) = false
      · rw [if_pos hskip]
        exact ⟨hT, hWp⟩
      · rw [if_neg hskip]
        constructor
        · rw [itemGet_rowSet_ne _ _ _ _ (by decide : ("Telefono" : String) ≠ "WhatsApp")]
          exact hT
        · rcases itemGet_rowSet_self_or r' "WhatsApp" (whatsappVal item) with h | h
          · by_cases hv : whatsappVal item = ""
            · left
              rw [h]
              exact hv
            · right
              rw [h]
              rcases Bool.eq_false_or_eq_true (looks_like_mobile (whatsappVal item)) with hm | hm
              · exact hm
              · exact absurd ⟨hv, hm⟩ hskip
          · rw [h]
            exact hWp
    · rw [if_neg hcW]
      by_cases hcT : c = "Telefono"
      · rw [if_pos hcT]
        subst hcT
        dsimp only
        by_cases hmob : telefonoVal item ≠ ""
            ∧ looks_like_mobile (telefonoVal item) = true
        · rw [if_pos hmob, if_pos hW]
          exact ⟨hT, hWp⟩
        · rw [if_neg hmob]
          constructor
          · rcases itemGet_rowSet_self_or r' "Telefono" (telefonoVal item) with h | h
            · rw [h]
              by_cases hv : telefonoVal item = ""
              · rw [hv]
                decide
              · rcases Bool.eq_false_or_eq_true (looks_like_mobile (telefonoVal item)) with hm | hm
                · exact absurd ⟨hv, hm⟩ hmob
                · exact hm
            · rw [h]
              exact hT
          · rw [itemGet_rowSet_ne _ _ _ _ (by decide : ("WhatsApp" : String) ≠ "Telefono")]
            exact hWp
      · rw [if_neg hcT]
        constructor
        · rw [itemGet_rowSet_ne _ _ _ _ (fun hh => hcT hh.symm)]
          exact hT
        · rw [itemGet_rowSet_ne _ _ _ _ (fun hh => hcW hh.symm)]
          exact hWp
  · rw [if_neg h1]
    by_cases hcU : c = "Unnamed: 0"
    · rw [if_pos hcU]
      subst hcU
      constructor
      · rw [itemGet_rowSet_ne _ _ _ _ (by decide : ("Telefono" : String) ≠ "Unnamed: 0")]
        exact hT
      · rw [itemGet_rowSet_ne _ _ _ _ (by decide : ("WhatsApp" : String) ≠ "Unnamed: 0")]
        exact hWp
    · rw [if_neg hcU]
      exact ⟨hT, hWp⟩

/-- C4: when the master schema has a dedicated mobile column
`WhatsApp`, (a) the matched-row update leaves the `Telefono` cell
either untouched or holding a value classified non-mobile — a
mobile-classified phone value is never written there; (b) the
`WhatsApp` cell is either untouched, empty, or holds a
mobile-classified value — a nonempty non-mobile value is never
written there; (c,d) the same holds for appended rows, whose
`Telefono` cell is never mobile-classified and whose `WhatsApp` cell
is empty or mobile-classified.  A value whose classification does not
match the column is skipped, not written. -/
theorem channel_exclusivity (cols : List String) (r : Row) (item : Assoc) (n : Nat)
    (hW : "WhatsApp" ∈ cols) :
    (itemGet (updateRow cols r item) "Telefono" = itemGet r "Telefono"
      ∨ looks_like_mobile (itemGet (updateRow cols r item) "Telefono") = false)
  ∧ (itemGet (updateRow cols r item) "WhatsApp" = itemGet r "WhatsApp"
      ∨ itemGet (updateRow cols r item) "WhatsApp" = ""
      ∨ looks_like_mobile (itemGet (updateRow cols r item) "WhatsApp") = true)
  ∧ looks_like_mobile (itemGet (newRowFor cols n item) "Telefono") = false
  ∧ (itemGet (newRowFor cols n item) "WhatsApp" = ""
      ∨ looks_like_mobile (itemGet (newRowFor cols n item) "WhatsApp") = true) := by
  have hupd := foldl_preserve
    (P := fun r' => (itemGet r' "Telefono" = itemGet r "Telefono"
        ∨ looks_like_mobile (itemGet r' "Telefono") = false)
      ∧ (itemGet r' "WhatsApp" = itemGet r "WhatsApp"
        ∨ itemGet r' "WhatsApp" = ""
        ∨ looks_like_mobile (itemGet r' "WhatsApp") = true))
    (f := updateCol cols item)
    (fun b a hb => updateCol_channel_step cols item r b a hW hb.1 hb.2)
    cols r ⟨Or.inl rfl, Or.inl rfl⟩
  have hnew := foldl_preserve
    (P := fun r' => looks_like_mobile (itemGet r' "Telefono") = false
      ∧ (itemGet r' "WhatsApp" = ""
        ∨ looks_like_mobile (itemGet r' "WhatsApp") = true))
    (f := newRowCol cols item n)
    (fun b a hb => newRowCol_channel_step cols item n b a hW hb.1 hb.2)
    cols (cols.map (fun c => (c, "")))
    ⟨by rw [itemGet_initRow]; decide, Or.inl (itemGet_initRow cols "WhatsApp")⟩
  exact ⟨hupd.1, hupd.2, hnew.1, hnew.2⟩

/-- Witness for `channel_exclusivity` on the two-column schema with a
mobile number arriving in the `Telefono` field. -/
theorem channel_exclusivity_witness :
    (itemGet (updateRow ["WhatsApp", "Telefono"]
        [("WhatsApp", ""), ("Telefono", "6015551234")]
        [("Telefono", "3015551234")]) "Telefono"
      = itemGet [("WhatsApp", ""), ("Telefono", "6015551234")] "Telefono"
      ∨ looks_like_mobile (itemGet (updateRow ["WhatsApp", "Telefono"]
        [("WhatsApp", ""), ("Telefono", "6015551234")]
        [("Telefono", "3015551234")]) "Telefono") = false)
  ∧ (itemGet (updateRow ["WhatsApp", "Telefono"]
        [("WhatsApp", ""), ("Telefono", "6015551234")]
        [("Telefono", "3015551234")]) "WhatsApp"
      = itemGet [("WhatsApp", ""), ("Telefono", "6015551234")] "WhatsApp"
      ∨ itemGet (updateRow ["WhatsApp", "Telefono"]
        [("WhatsApp", ""), ("Telefono", "6015551234")]
        [("Telefono", "3015551234")]) "WhatsApp" = ""
      ∨ looks_like_mobile (itemGet (updateRow ["WhatsApp", "Telefono"]
        [("WhatsApp", ""), ("Telefono", "6015551234")]
        [("Telefono", "3015551234")]) "WhatsApp") = true)
  ∧ looks_like_mobile (itemGet (newRowFor ["WhatsApp", "Telefono"] 1
        [("Telefono", "3015551234")]) "Telefono") = false
  ∧ (itemGet (newRowFor ["WhatsApp", "Telefono"] 1
        [("Telefono", "3015551234")]) "WhatsApp" = ""
      ∨ looks_like_mobile (itemGet (newRowFor ["WhatsApp", "Telefono"] 1
        [("Telefono", "3015551234")]) "WhatsApp") = true) :=
  channel_exclusivity ["WhatsApp", "Telefono"]
    [("WhatsApp", ""), ("Telefono", "6015551234")]
    [("Telefono", "3015551234")] 1 (by decide)

/-- C3 (amended): the only empty-key protections the code has.  In
`compare_with_existing`, a duplicate-by-website verdict requires a
truthy (nonempty) website key, and a duplicate-by-name verdict
requires a master row whose raw stripped name is truthy and whose
normalized name equals the candidate's name key.  No guard requires
the *normalized* name key to be nonempty: a nonempty master name that
normalizes to empty matches a candidate with empty name key, and the
merge engine (`merge_into_existing_excel_df`) applies no empty-key
guard at all, merging an empty-key record into the last master row
whose key normalizes to empty. -/
theorem classifier_empty_key_guards (rows : List Row) (item : Assoc) :
    (dupByWebsite rows item = true → websiteKeyOf item ≠ "")
  ∧ (dupByName rows item = true →
      ∃ r, r ∈ rows ∧ pyStrip (itemGet r "Nombre") ≠ ""
        ∧ normalize_key (pyStrip (itemGet r "Nombre")) = nameKeyOf item) := by
  constructor
  · intro h
    unfold dupByWebsite at h
    rw [Bool.and_eq_true] at h
    exact bne_iff_ne.mp h.1
  · intro h
    unfold dupByName inByName at h
    rw [List.any_eq_true] at h
    obtain ⟨r, hr, hp⟩ := h
    dsimp only at hp
    rw [Bool.and_eq_true] at hp
    exact ⟨r, hr, bne_iff_ne.mp hp.1, beq_iff_eq.mp hp.2⟩

/-- Witness for `classifier_empty_key_guards` on a master row and
candidate both carrying name `Cafe` and website `x.com`. -/
theorem classifier_empty_key_guards_witness :
    (websiteKeyOf [("Nombre", "Cafe"), ("Página Web", "x.com")] ≠ "")
  ∧ (∃ r, r ∈ [[("Nombre", "Cafe"), ("Pagina Web", "x.com")]]
      ∧ pyStrip (itemGet r "Nombre") ≠ ""
      ∧ normalize_key (pyStrip (itemGet r "Nombre"))
          = nameKeyOf [("Nombre", "Cafe"), ("Página Web", "x.com")]) :=
  ⟨(classifier_empty_key_guards [[("Nombre", "Cafe"), ("Pagina Web", "x.com")]]
      [("Nombre", "Cafe"), ("Página Web", "x.com")]).1 (by decide),
   (classifier_empty_key_guards [[("Nombre", "Cafe"), ("Pagina Web", "x.com")]]
      [("Nombre", "Cafe"), ("Página Web", "x.com")]).2 (by decide)⟩

/-! ### Order-independence of the partition (C7) -/

theorem compare_eq_filter (rows : List Row) (items : List Assoc) :
    (compare_with_existing rows items).1
      = items.filter (fun it => !(isDup rows it))
  ∧ (compare_with_existing rows items).2
      = items.filter (fun it => isDup rows it) := by
  induction items with
  | nil => exact ⟨rfl, rfl⟩
  | cons a t ih =>
    unfold compare_with_existing
    cases hd : isDup rows a
    · constructor
      · simp [hd, ih.1]
      · simp [hd, ih.2]
    · constructor
      · simp [hd, ih.1]
      · simp [hd, ih.2]

/-- C7 (amended): the partition produced by the duplicate classifier
is order-independent — permuting the candidate batch permutes
`newRecords` and `duplicates` accordingly, because each record's
classification depends only on the record and the master.  (The final
merged dataset content is *not* permutation-invariant when two records
share a normalized key, and same-key non-matching records are each
appended rather than collapsed last-writer-wins — see the
counterexample.) -/
theorem classification_perm_invariant (rows : List Row) (l l' : List Assoc)
    (h : l.Perm l') :
    ((compare_with_existing rows l).1).Perm ((compare_with_existing rows l').1)
  ∧ ((compare_with_existing rows l).2).Perm ((compare_with_existing rows l').2) := by
  rw [(compare_eq_filter rows l).1, (compare_eq_filter rows l').1,
      (compare_eq_filter rows l).2, (compare_eq_filter rows l').2]
  exact ⟨h.filter _, h.filter _⟩

/-- Witness for `classification_perm_invariant` on a two-record batch
and its swap. -/
theorem classification_perm_invariant_witness :
    ((compare_with_existing [[("Nombre", "Acme")]]
        [[("Nombre", "Acme")], [("Nombre", "Other")]]).1).Perm
      ((compare_with_existing [[("Nombre", "Acme")]]
        [[("Nombre", "Other")], [("Nombre", "Acme")]]).1)
  ∧ ((compare_with_existing [[("Nombre", "Acme")]]
        [[("Nombre", "Acme")], [("Nombre", "Other")]]).2).Perm
      ((compare_with_existing [[("Nombre", "Acme")]]
        [[("Nombre", "Other")], [("Nombre", "Acme")]]).2) :=
  classification_perm_invariant [[("Nombre", "Acme")]]
    [[("Nombre", "Acme")], [("Nombre", "Other")]]
    [[("Nombre", "Other")], [("Nombre", "Acme")]]
    (List.Perm.swap _ _ _)

/-! ### Collector lemmas (C8) -/

theorem addLoop_invariant :
    ∀ (bs acc : List ProcessedBiz) (ids : List String),
    (∀ p ∈ acc, pidOf p ∈ ids) →
    (acc.map pidOf).Nodup →
    (∀ p ∈ acc, hasUsablePhone p = true ∧ pidOf p ≠ "") →
    (∀ b ∈ bs, hasUsablePhone b = true) →
    (∀ p ∈ (addLoop bs acc ids).1, pidOf p ∈ (addLoop bs acc ids).2)
    ∧ ((addLoop bs acc ids).1.map pidOf).Nodup
    ∧ (∀ p ∈ (addLoop bs acc ids).1, hasUsablePhone p = true ∧ pidOf p ≠ "") := by
  intro bs
  induction bs with
  | nil =>
    intro acc ids h1 h2 h3 _
    exact ⟨h1, h2, h3⟩
  | cons b rest ih =>
    intro acc ids h1 h2 h3 hbs
    unfold addLoop
    dsimp only
    by_cases hc : pidOf b ≠ "" ∧ pidOf b ∉ ids
    · rw [if_pos hc]
      apply ih (acc ++ [b]) (ids ++ [pidOf b])
      · intro p hp
        rcases List.mem_append.mp hp with h | h
        · exact List.mem_append_left _ (h1 p h)
        · rw [List.mem_singleton.mp h]
          exact List.mem_append_right _ (List.mem_singleton.mpr rfl)
      · rw [List.map_append]
        refine List.Nodup.append h2 (List.nodup_singleton _) ?_
        intro x hx hmem
        rw [List.mem_singleton.mp hmem] at hx
        obtain ⟨p, hp, hpp⟩ := List.mem_map.mp hx
        exact hc.2 (hpp ▸ h1 p hp)
      · intro p hp
        rcases List.mem_append.mp hp with h | h
        · exact h3 p h
        · rw [List.mem_singleton.mp h]
          exact ⟨hbs b (List.mem_cons_self _ _), hc.1⟩
      · intro x hx
        exact hbs x (List.mem_cons_of_mem _ hx)
    · rw [if_neg hc]
      exact ih acc ids h1 h2 h3 (fun x hx => hbs x (List.mem_cons_of_mem _ hx))

theorem collectGo_invariant (search : String → Nat → List Business) (bt : String)
    (target : Nat) :
    ∀ (vs : List String) (st : CollectState),
    (st.withPhone.map pidOf).Nodup →
    (∀ p ∈ st.withPhone, hasUsablePhone p = true ∧ pidOf p ≠ "") →
    ((collectGo search bt target vs st).withPhone.map pidOf).Nodup
    ∧ ∀ p ∈ (collectGo search bt target vs st).withPhone,
        hasUsablePhone p = true ∧ pidOf p ≠ "" := by
  intro vs
  induction vs with
  | nil =>
    intro st hnd hall
    exact ⟨hnd, hall⟩
  | cons v rest ih =>
    intro st hnd hall
    unfold collectGo
    by_cases h1 : target ≤ st.withPhone.length
    · rw [if_pos h1]
      exact ⟨hnd, hall⟩
    · rw [if_neg h1]
      by_cases h2 : 5 < st.attempts + 1
      · rw [if_pos h2]
        exact ⟨hnd, hall⟩
      · rw [if_neg h2]
        dsimp only
        by_cases h3 : search (if v ≠ "" then bt ++ " " ++ v else bt)
            (max ((target - st.withPhone.length) * 3) 60) = []
        · rw [if_pos h3]
          exact ih _ hnd hall
        · rw [if_neg h3]
          apply ih
          · exact (addLoop_invariant _ st.withPhone (st.withPhone.map pidOf)
              (fun p hp => List.mem_map_of_mem pidOf hp) hnd hall
              (fun b hb => List.of_mem_filter hb)).2.1
          · exact (addLoop_invariant _ st.withPhone (st.withPhone.map pidOf)
              (fun p hp => List.mem_map_of_mem pidOf hp) hnd hall
              (fun b hb => List.of_mem_filter hb)).2.2

/-- C8: for every search oracle, query and target, the collector (a
total function — it cannot raise) returns at most `target` records,
every returned record has a usable phone and a truthy external
identifier, and no two returned records share an external identifier
— the accumulator is deduplicated by place id across attempts. -/
theorem collector_contract (search : String → Nat → List Business)
    (bt sv : String) (target : Nat) :
    (load_businesses_with_contact_info search bt sv target).length ≤ target
  ∧ (∀ p ∈ load_businesses_with_contact_info search bt sv target,
      hasUsablePhone p = true ∧ pidOf p ≠ "")
  ∧ ((load_businesses_with_contact_info search bt sv target).map pidOf).Nodup := by
  have hinv := collectGo_invariant search bt target (variationsToTry sv) ⟨[], [], 0⟩
    List.nodup_nil (fun p hp => absurd hp (List.not_mem_nil p))
  unfold load_businesses_with_contact_info
  dsimp only
  refine ⟨?_, ?_, ?_⟩
  · rw [List.length_take]
    omega
  · intro p hp
    exact hinv.2 p (List.mem_of_mem_take hp)
  · rw [List.map_take]
    exact List.Sublist.nodup (List.take_sublist _ _) hinv.1
